import Mathlib

/-!
Shallow embedding of the swu2influx feed-parsing and normalization pipeline.

The JavaScript source (swu2influx.js and the later index-script revision)
is translated function by function:

* JavaScript strings become `String` / `List Char`;
* the regular expression `/^(\+|\-)?\s?(\d{2})\:(\d{2})/gm` is embedded as an
  explicit scanning matcher (`regexExecSchedule`) that first tries the match at
  position 0 and then, because of the `m` flag, at every position following a
  line terminator;
* JavaScript numbers that only ever hold integers become `ℤ`; coordinate
  values become `ℚ` (the scaling/rounding logic of `fixLocation` is exact in
  `ℚ`), and `NaN` is represented by `Option.none`;
* the unbounded `while` loop of `fixLocation` is embedded fuel-indexed
  (`scaleLoop`); termination of the JS loop is `∃ fuel` making the result
  `some`;
* code that can throw (`parseIds`, the early revision of
  `convertScheduleStringToSeconds`, `parseXml`) returns `Option` / an explicit
  outcome type, `none` standing for the thrown exception.
-/

/-- JavaScript `\s` (WhiteSpace ∪ LineTerminator) by code point:
TAB, LF, VT, FF, CR, SP, NBSP, OGHAM, U+2000–U+200A, LS, PS, NNBSP, MMSP,
IDEOGRAPHIC SPACE, ZWNBSP. -/
def isJsWhitespace (c : Char) : Bool :=
  c.toNat = 9 || c.toNat = 10 || c.toNat = 11 || c.toNat = 12 || c.toNat = 13 ||
  c.toNat = 32 || c.toNat = 160 || c.toNat = 5760 ||
  (8192 ≤ c.toNat && c.toNat ≤ 8202) || c.toNat = 8232 || c.toNat = 8233 ||
  c.toNat = 8239 || c.toNat = 8287 || c.toNat = 12288 || c.toNat = 65279

/-- JavaScript LineTerminator: LF, CR, LS, PS. The `m` flag makes `^` match
right after any of these. -/
def isLineTerm (c : Char) : Bool :=
  c.toNat = 10 || c.toNat = 13 || c.toNat = 8232 || c.toNat = 8233

/-- JavaScript `\d`: the ASCII digits, code points 48–57. -/
def isAsciiDigit (c : Char) : Bool :=
  48 ≤ c.toNat && c.toNat ≤ 57

/-- `parseInt` of a two-ASCII-digit capture group. -/
def twoDigits (d1 d2 : Char) : ℕ :=
  (d1.toNat - 48) * 10 + (d2.toNat - 48)

/-- The leading `(\+|\-)?` of the schedule regex: consume a sign character if
present (group 1), otherwise capture nothing. -/
def stripSign : List Char → Option Char × List Char
  | [] => (none, [])
  | c :: r => if c = '+' || c = '-' then (some c, r) else (none, c :: r)

/-- The `\s?` of the schedule regex: consume one whitespace character if
present. (No backtracking is needed: `\s` and `\d` are disjoint.) -/
def stripWs : List Char → List Char
  | [] => []
  | c :: r => if isJsWhitespace c then r else c :: r

/-- The `(\d{2})\:(\d{2})` tail of the schedule regex: two digits, a colon,
two digits; returns the two capture groups as numbers (`parseInt` base 10). -/
def readHhMm : List Char → Option (ℕ × ℕ)
  | d1 :: d2 :: c :: d3 :: d4 :: _ =>
    if isAsciiDigit d1 && isAsciiDigit d2 && c = ':' && isAsciiDigit d3 &&
        isAsciiDigit d4 then
      some (twoDigits d1 d2, twoDigits d3 d4)
    else none
  | _ => none

/-- One anchored attempt of `(\+|\-)?\s?(\d{2})\:(\d{2})` at the head of the
input. -/
def matchAtStart (cs : List Char) : Option (Option Char × ℕ × ℕ) :=
  let s := stripSign cs
  match readHhMm (stripWs s.2) with
  | some (a, b) => some (s.1, a, b)
  | none => none

/-- Attempts of the anchored pattern at every position that follows a line
terminator, in left-to-right order (the effect of the regex `m` flag during
`exec`'s scan). -/
def scanLineStarts : List Char → Option (Option Char × ℕ × ℕ)
  | [] => none
  | c :: rest =>
    if isLineTerm c then
      match matchAtStart rest with
      | some r => some r
      | none => scanLineStarts rest
    else scanLineStarts rest

/-- `/^(\+|\-)?\s?(\d{2})\:(\d{2})/gm.exec(s)` with `lastIndex = 0`: the
leftmost match, which by the `^` anchor can only start at position 0 or right
after a line terminator. Returns (group 1, parseInt(group 2), parseInt(group
3)), `none` when `exec` returns `null`. -/
def regexExecSchedule (cs : List Char) : Option (Option Char × ℕ × ℕ) :=
  match matchAtStart cs with
  | some r => some r
  | none => scanLineStarts cs

/-- `convertScheduleStringToSeconds` as in the latest revision: the
`!matches || matches.length < 3` guard makes the unmatched case return 0
(on a successful `exec` the length is always 4, so only the null check
matters). -/
def convertScheduleStringToSeconds (schedule : String) : ℤ :=
  match regexExecSchedule schedule.data with
  | none => 0
  | some (sg, g2, g3) =>
    let d : ℤ := (g3 : ℤ) + (g2 : ℤ) * 60
    if sg = some '-' then -d else d

/-- JavaScript `String.prototype.startsWith`, stated on the character list so
that it evaluates by kernel reduction. -/
def jsStartsWith (p s : String) : Bool :=
  p.data.isPrefixOf s.data

/-- `convertScheduleStringToSeconds` as in the earlier swu2influx.js revision:
it first short-circuits on the `ab:` prefix, but on a failed `exec` it
dereferences `matches.length` on `null` and throws a `TypeError`, embedded
here as `none`. -/
def convertScheduleStringToSecondsV1 (schedule : String) : Option ℤ :=
  if jsStartsWith "ab:" schedule then some 0
  else
    match regexExecSchedule schedule.data with
    | none => none
    | some (sg, g2, g3) =>
      let d : ℤ := (g3 : ℤ) + (g2 : ℤ) * 60
      some (if sg = some '-' then -d else d)

/-- `Math.round` for finite values: round half toward positive infinity,
`⌊x + 1/2⌋`. Coordinates are embedded in `ℚ` (exact for the ×10 scaling and
comparison logic of `fixLocation`); `NaN` is `Option.none` one level up. -/
def jsRound (q : ℚ) : ℤ :=
  ⌊q + 1 / 2⌋

/-- The `while (Math.round(ordinate) < 8.0) ordinate *= 10.0;` loop of
`fixLocation`, fuel-indexed because the source loop is unbounded: `none`
means the fuel ran out before the loop exited. The JS loop terminates on a
given start value exactly when some fuel yields `some`. -/
def scaleLoop : ℕ → ℚ → Option ℚ
  | 0, _ => none
  | n + 1, q => if jsRound q < 8 then scaleLoop n (q * 10) else some q

/-- `fixLocation`: the input is the `parseFloat` result (`none` = `NaN`).
On `NaN` the loop is skipped and `NaN` is returned; otherwise the scaling
loop runs (fuel-indexed; outer `none` = the loop never exits). -/
def fixLocation (fuel : ℕ) : Option ℚ → Option (Option ℚ)
  | none => some none
  | some q => (scaleLoop fuel q).map some

example : convertScheduleStringToSeconds "+ 03:30" = 210 := by decide
example : convertScheduleStringToSeconds "- 03:20" = -200 := by decide
example : convertScheduleStringToSeconds "00:00" = 0 := by decide
example : convertScheduleStringToSeconds "Oldtimer" = 0 := by decide
example : convertScheduleStringToSeconds "ab: 14:05" = 0 := by decide
example : convertScheduleStringToSeconds "x\n03:25" = 205 := by decide
example : convertScheduleStringToSeconds "99:99" = 6039 := by decide
example : convertScheduleStringToSecondsV1 "Oldtimer" = none := by decide
example : convertScheduleStringToSecondsV1 "ab: 14:05" = some 0 := by decide

/-- Unfolding lemma for one iteration of the scaling loop. -/
theorem scaleLoop_succ (n : ℕ) (q : ℚ) :
    scaleLoop (n + 1) q = if jsRound q < 8 then scaleLoop n (q * 10) else some q :=
  rfl

/-- The loop guard `Math.round(ordinate) < 8.0` in terms of the rational
value: `⌊q + 1/2⌋ < 8 ↔ q < 15/2`. -/
theorem jsRound_lt_eight_iff (q : ℚ) : jsRound q < 8 ↔ q < 15 / 2 := by
  rw [jsRound, Int.floor_lt]
  push_cast
  constructor <;> intro h <;> linarith

example : fixLocation 2 none = some none := by decide
example : scaleLoop 1 (48 : ℚ) = some 48 := by
  rw [scaleLoop_succ, if_neg]
  rw [jsRound_lt_eight_iff]
  norm_num
example : scaleLoop 3 ((3 : ℚ) / 10) = some 30 := by
  rw [scaleLoop_succ, if_pos ((jsRound_lt_eight_iff _).mpr (by norm_num))]
  rw [show (3 : ℚ) / 10 * 10 = 3 by norm_num]
  rw [scaleLoop_succ, if_pos ((jsRound_lt_eight_iff _).mpr (by norm_num))]
  rw [show (3 : ℚ) * 10 = 30 by norm_num]
  rw [scaleLoop_succ, if_neg]
  rw [jsRound_lt_eight_iff]
  norm_num

/-- `translateVehicleType`: fixed vocabulary, anything else passes through. -/
def translateVehicleType (type : String) : String :=
  if type = "Strab" then "tram"
  else if type = "Bus" then "bus"
  else if type = "Schienenschleifzug" then "railgrinder"
  else type

/-- Value of a hexadecimal digit, `none` for a non-digit. -/
def hexDigitVal (c : Char) : Option ℕ :=
  if 48 ≤ c.toNat && c.toNat ≤ 57 then some (c.toNat - 48)
  else if 97 ≤ c.toNat && c.toNat ≤ 102 then some (c.toNat - 87)
  else if 65 ≤ c.toNat && c.toNat ≤ 70 then some (c.toNat - 55)
  else none

/-- Value of a decimal digit, `none` for a non-digit. -/
def decDigitVal (c : Char) : Option ℕ :=
  if 48 ≤ c.toNat && c.toNat ≤ 57 then some (c.toNat - 48) else none

/-- Longest leading run of digits of the given kind turned into a number;
`none` (`NaN`) if there is no leading digit at all. -/
def parseDigitsRadix (dv : Char → Option ℕ) (base : ℕ) (cs : List Char) : Option ℕ :=
  match cs.takeWhile (fun c => (dv c).isSome) with
  | [] => none
  | ds => some (ds.foldl (fun acc c => acc * base + ((dv c).getD 0)) 0)

/-- `parseInt(s)` with no radix argument (ES2015 semantics): strip leading
whitespace, optional sign, `0x`/`0X` switches to base 16, otherwise base 10;
parse the longest digit run; `NaN` (`none`) when there is none. The numeric
value is exact here (`ℤ`) where JS would round very long digit runs to a
float. -/
def jsParseIntStr (s : String) : Option ℤ :=
  let cs := s.data.dropWhile isJsWhitespace
  let sgn := stripSign cs
  let neg : Bool := sgn.1 = some '-'
  let body :=
    match sgn.2 with
    | '0' :: x :: rest =>
      if x = 'x' || x = 'X' then parseDigitsRadix hexDigitVal 16 rest
      else parseDigitsRadix decDigitVal 10 sgn.2
    | _ => parseDigitsRadix decDigitVal 10 sgn.2
  body.map fun n => if neg then -(n : ℤ) else (n : ℤ)

/-- `parseInt(marker.X)` where the upstream field may be missing:
`parseInt(undefined)` stringifies to `"undefined"` and yields `NaN`. -/
def jsParseInt : Option String → Option ℤ
  | none => none
  | some s => jsParseIntStr s

example : jsParseInt (some "4711") = some 4711 := by decide
example : jsParseInt (some "abc") = none := by decide
example : jsParseInt (some "  -12x") = some (-12) := by decide
example : jsParseInt (some "0x1A") = some 26 := by decide
example : jsParseInt (some "") = none := by decide
example : jsParseInt none = none := by decide

/-- A value stored in the `tags` object of the latest revision. -/
inductive TagVal where
  | str : String → TagVal
  | int : ℤ → TagVal
  | bool : Bool → TagVal
deriving DecidableEq

/-- A raw marker of the latest (JSON) feed revision, restricted to the fields
the normalizer reads. `lat`/`lng` carry the `parseFloat` result (`none` =
`NaN`); fields the upstream may omit are `Option String` (`none` =
`undefined`); the remaining fields are always strings in the feed and the
code dereferences them unconditionally. -/
structure Marker where
  lat : Option ℚ
  lng : Option ℚ
  Abweichung : String
  Wifi : Option String
  Typ : String
  aktiv : Option String
  Fzg : Option String
  Linie : Option String
  TripID : Option String
  Zielschild : String

/-- The `tags` object built for one marker in the latest revision, as an
insertion-ordered key/value list: `wifi`, `type`, `active` always; `vehicle`,
`route`, `trip` only when `parseInt` does not give `NaN`; `headsign` only
when `Zielschild` is not the empty string. -/
def buildTags (m : Marker) : List (String × TagVal) :=
  let t0 : List (String × TagVal) :=
    [("wifi", TagVal.bool (m.Wifi = some "true")),
     ("type", TagVal.str (translateVehicleType m.Typ)),
     ("active", TagVal.bool (m.aktiv = some "true"))]
  let t1 := match jsParseInt m.Fzg with
    | some n => t0 ++ [("vehicle", TagVal.int n)]
    | none => t0
  let t2 := match jsParseInt m.Linie with
    | some n => t1 ++ [("route", TagVal.int n)]
    | none => t1
  let t3 := match jsParseInt m.TripID with
    | some n => t2 ++ [("trip", TagVal.int n)]
    | none => t2
  if m.Zielschild = "" then t3 else t3 ++ [("headsign", TagVal.str m.Zielschild)]

/-- A value stored in the `fields` object of the latest revision: a float
(`none` = `NaN`) or the integer delay. -/
inductive FieldVal where
  | num : Option ℚ → FieldVal
  | int : ℤ → FieldVal
deriving DecidableEq

/-- The `fields` object built for one marker in the latest revision:
`lat`/`long` through `fixLocation` (fuel-indexed; outer `none` = a
`fixLocation` call that never returns), then `delay` only when the schedule
string does not start with `ab:`. -/
def buildFields (fuel : ℕ) (m : Marker) : Option (List (String × FieldVal)) :=
  (fixLocation fuel m.lat).bind fun lv =>
    (fixLocation fuel m.lng).bind fun gv =>
      let base := [("lat", FieldVal.num lv), ("long", FieldVal.num gv)]
      if jsStartsWith "ab:" m.Abweichung then some base
      else some (base ++ [("delay", FieldVal.int (convertScheduleStringToSeconds m.Abweichung))])

/-- A raw marker of the earlier (XML) feed revision, restricted to the shape
the writer reads. Fields that are passed through untouched keep an abstract
value type `α`; the boolean-source fields are `Option String` (`none` =
attribute missing) and the schedule is a string. -/
structure MarkerV1 (α : Type) where
  fzg : α
  linie : α
  uml : α
  lat : α
  lng : α
  ac : Option String
  wifi : Option String
  schedule : String
  ziel : α
  fw : α
  typ : α

/-- A value of the `fields` object of the earlier revision: a raw upstream
value passed through, a derived boolean, or the integer delay. -/
inductive FieldValV1 (α : Type) where
  | raw : α → FieldValV1 α
  | bool : Bool → FieldValV1 α
  | int : ℤ → FieldValV1 α
deriving DecidableEq

/-- The `fields` object of the earlier swu2influx.js revision, in source
order. Evaluating the `delay` entry calls the early
`convertScheduleStringToSeconds`, which can throw (`none`): then no object is
produced at all. -/
def buildFieldsV1 {α : Type} (m : MarkerV1 α) : Option (List (String × FieldValV1 α)) :=
  match convertScheduleStringToSecondsV1 m.schedule with
  | none => none
  | some d =>
    some [("vehicle", FieldValV1.raw m.fzg), ("route", FieldValV1.raw m.linie),
          ("trip", FieldValV1.raw m.uml), ("lat", FieldValV1.raw m.lat),
          ("long", FieldValV1.raw m.lng), ("ac", FieldValV1.bool (m.ac = some "J")),
          ("wifi", FieldValV1.bool (m.wifi = some "J")), ("delay", FieldValV1.int d),
          ("destination", FieldValV1.raw m.ziel), ("tripPattern", FieldValV1.raw m.fw),
          ("typ", FieldValV1.raw m.typ)]

/-- One attempt of `var <name> = (\d+);` at the given position: the literal
declaration text, then a maximal nonempty digit run (greedy `\d+` can only
match followed by `;` if the full run is), then `;`. Returns the capture. -/
def matchVarAt (lit cs : List Char) : Option (List Char) :=
  if lit.isPrefixOf cs then
    let rest := cs.drop lit.length
    let ds := rest.takeWhile isAsciiDigit
    match ds, rest.drop ds.length with
    | [], _ => none
    | _ :: _, c :: _ => if c = ';' then some ds else none
    | _ :: _, [] => none
  else none

/-- `exec` of the unanchored `/var <name> = (\d+);/gm` with `lastIndex = 0`:
the leftmost position where the pattern matches wins. Returns capture group 1
(`null` = `none`). -/
def findVarDecl (lit : List Char) : List Char → Option (List Char)
  | [] => none
  | c :: rest =>
    match matchVarAt lit (c :: rest) with
    | some ds => some ds
    | none => findVarDecl lit rest

/-- `parseIds`: extract the `request` and `state` values from the landing
page. When either regex does not match, the source indexes `null[1]` and
throws a `TypeError` (`none` here) instead of returning. -/
def parseIds (htmlString : String) : Option (String × String) :=
  match findVarDecl "var request = ".data htmlString.data,
        findVarDecl "var state = ".data htmlString.data with
  | some r, some s => some (String.mk r, String.mk s)
  | _, _ => none

example : parseIds "var request = 14462840970;\nvar state = 1548453720;"
    = some ("14462840970", "1548453720") := by decide
example : parseIds "var request = 123; only" = none := by decide

/-- What a call into `parseXml` observably does: throw, or return a value
(`value none` = return `undefined`). -/
inductive JsOutcome (α : Type) where
  | thrown : JsOutcome α
  | value : Option α → JsOutcome α
deriving DecidableEq

/-- `parseXml`, with the external fast-xml-parser library abstracted:
`validate` is `parser.validate(...) === true` and `markersOf` is the
`markers`/`marker` lookup in `parser.parse(...)` (`none` = the document has
no `markers` key, so `jsonObj.markers.marker` throws; `some mk` = the
`markers` key exists and its `marker` entry is `mk`, possibly `undefined`).
When validation fails the source falls off the function and returns
`undefined`. -/
def parseXml (α : Type) (validate : String → Bool)
    (markersOf : String → Option (Option α)) (xmlGlump : String) : JsOutcome α :=
  if validate xmlGlump then
    match markersOf xmlGlump with
    | none => JsOutcome.thrown
    | some mk => JsOutcome.value mk
  else JsOutcome.value none

theorem twoDigits_le {d1 d2 : Char} (h1 : isAsciiDigit d1 = true)
    (h2 : isAsciiDigit d2 = true) : twoDigits d1 d2 ≤ 99 := by
  simp only [isAsciiDigit, Bool.and_eq_true, decide_eq_true_eq] at h1 h2
  simp only [twoDigits]
  omega

theorem readHhMm_le {cs : List Char} {a b : ℕ} (h : readHhMm cs = some (a, b)) :
    a ≤ 99 ∧ b ≤ 99 := by
  rcases cs with _ | ⟨d1, _ | ⟨d2, _ | ⟨c, _ | ⟨d3, _ | ⟨d4, rest⟩⟩⟩⟩⟩ <;>
    simp only [readHhMm] at h <;>
    first
    | exact Option.noConfusion h
    | skip
  split at h
  · next hc =>
      simp only [Bool.and_eq_true, decide_eq_true_eq] at hc
      obtain ⟨⟨⟨⟨hd1, hd2⟩, _⟩, hd3⟩, hd4⟩ := hc
      injection h with h
      injection h with ha hb
      subst ha
      subst hb
      exact ⟨twoDigits_le hd1 hd2, twoDigits_le hd3 hd4⟩
  · exact absurd h (by simp)

theorem matchAtStart_le {cs : List Char} {sg : Option Char} {a b : ℕ}
    (h : matchAtStart cs = some (sg, a, b)) : a ≤ 99 ∧ b ≤ 99 := by
  simp only [matchAtStart] at h
  split at h
  · next a0 b0 heq =>
      injection h with h
      injection h with h1 h2
      injection h2 with ha hb
      subst ha
      subst hb
      exact readHhMm_le heq
  · exact absurd h (by simp)

theorem scanLineStarts_le {cs : List Char} {sg : Option Char} {a b : ℕ}
    (h : scanLineStarts cs = some (sg, a, b)) : a ≤ 99 ∧ b ≤ 99 := by
  induction cs with
  | nil => exact absurd h (by simp [scanLineStarts])
  | cons c rest ih =>
      simp only [scanLineStarts] at h
      split at h
      · split at h
        · next r heq =>
            injection h with h
            subst h
            exact matchAtStart_le heq
        · exact ih h
      · exact ih h

theorem regexExecSchedule_le {cs : List Char} {sg : Option Char} {a b : ℕ}
    (h : regexExecSchedule cs = some (sg, a, b)) : a ≤ 99 ∧ b ≤ 99 := by
  simp only [regexExecSchedule] at h
  split at h
  · next r heq =>
      injection h with h
      subst h
      exact matchAtStart_le heq
  · exact scanLineStarts_le h

/-- C1. Whenever the schedule regex matches at the start of the string with
sign group `sg` and numeric capture groups `g2` and `g3`,
`convertScheduleStringToSeconds` returns `g3 + g2 * 60`, negated exactly when
the sign is `-`; in particular `"+ 03:30" ↦ 210`, `"- 03:20" ↦ -200` and
`"00:00" ↦ 0`. -/
theorem convert_matches_sum_of_groups :
    (∀ (s : String) (sg : Option Char) (g2 g3 : ℕ),
        matchAtStart s.data = some (sg, g2, g3) →
        convertScheduleStringToSeconds s =
          if sg = some '-' then -((g3 : ℤ) + (g2 : ℤ) * 60)
          else (g3 : ℤ) + (g2 : ℤ) * 60)
  ∧ convertScheduleStringToSeconds "+ 03:30" = 210
  ∧ convertScheduleStringToSeconds "- 03:20" = -200
  ∧ convertScheduleStringToSeconds "00:00" = 0 := by
  refine ⟨?_, by decide, by decide, by decide⟩
  intro s sg g2 g3 h
  simp only [convertScheduleStringToSeconds, regexExecSchedule, h]

theorem convert_matches_sum_of_groups_witness :
    convertScheduleStringToSeconds "+ 03:30" =
      if (some '+' : Option Char) = some '-' then -((30 : ℤ) + 3 * 60)
      else (30 : ℤ) + 3 * 60 :=
  convert_matches_sum_of_groups.1 "+ 03:30" (some '+') 3 30 (by decide)

/-- C6 counterexample. The schedule regex carries the `m` flag, so `exec`
also matches at the start of a later line: `"x\n03:25"` does not start with
`ab:` and does not match the pattern at position 0, yet the function returns
205, not 0. -/
theorem convert_nonmatching_counterexample :
    jsStartsWith "ab:" "x\n03:25" = false
  ∧ matchAtStart ("x\n03:25").data = none
  ∧ convertScheduleStringToSeconds "x\n03:25" = 205 := by
  refine ⟨by decide, by decide, by decide⟩

/-- C6 (amended). In the latest revision the function is total (it is a plain
function into `ℤ` and the `!matches` guard covers a failed `exec`), and it
returns 0 exactly on the inputs where the `exec` of the multiline regex finds
no match at position 0 or after a line terminator — e.g. `"Oldtimer"`. In
the earlier swu2influx.js revision the null guard is missing, so a
non-matching string that does not start with `ab:` throws. -/
theorem convert_nonmatching_yields_zero :
    (∀ s : String, regexExecSchedule s.data = none → convertScheduleStringToSeconds s = 0)
  ∧ convertScheduleStringToSeconds "Oldtimer" = 0
  ∧ convertScheduleStringToSecondsV1 "Oldtimer" = none := by
  refine ⟨?_, by decide, by decide⟩
  intro s h
  simp only [convertScheduleStringToSeconds, h]

theorem convert_nonmatching_yields_zero_witness :
    convertScheduleStringToSeconds "Strab" = 0 :=
  convert_nonmatching_yields_zero.1 "Strab" (by decide)

/-- C10. For every input string the result of `convertScheduleStringToSeconds`
lies in `[-6039, 6039]`: each capture group is two unchecked digits, so each
contributes at most 99, and `"99:99"` indeed gives `99 + 99 * 60 = 6039`
(trailing characters after a match are ignored). -/
theorem convert_result_bounded :
    (∀ s : String,
        -6039 ≤ convertScheduleStringToSeconds s ∧ convertScheduleStringToSeconds s ≤ 6039)
  ∧ convertScheduleStringToSeconds "99:99" = 6039
  ∧ convertScheduleStringToSeconds "99:99 and trailing junk" = 6039 := by
  refine ⟨?_, by decide, by decide⟩
  intro s
  rcases h : regexExecSchedule s.data with _ | ⟨sg, g2, g3⟩
  · simp [convertScheduleStringToSeconds, h]
  · obtain ⟨h2, h3⟩ := regexExecSchedule_le h
    simp only [convertScheduleStringToSeconds, h]
    by_cases hsg : sg = some '-' <;> simp only [hsg, if_pos, if_neg, reduceIte] <;> omega

theorem convert_result_bounded_witness :
    -6039 ≤ convertScheduleStringToSeconds "00:00" ∧
      convertScheduleStringToSeconds "00:00" ≤ 6039 :=
  convert_result_bounded.1 "00:00"

theorem eight_le_jsRound {q : ℚ} (h : 8 ≤ q) : 8 ≤ jsRound q := by
  rw [jsRound, Int.le_floor]
  push_cast
  linarith

theorem jsRound_lt_of_nonpos {q : ℚ} (h : q ≤ 0) : jsRound q < 8 := by
  rw [jsRound_lt_eight_iff]
  linarith

theorem scaleLoop_none_of_nonpos : ∀ (n : ℕ) {q : ℚ}, q ≤ 0 → scaleLoop n q = none := by
  intro n
  induction n with
  | zero => intro q h; rfl
  | succ n ih =>
      intro q h
      rw [scaleLoop_succ, if_pos (jsRound_lt_of_nonpos h)]
      exact ih (by linarith)

theorem scaleLoop_isSome_of_round :
    ∀ (k : ℕ) (q : ℚ), 8 ≤ jsRound (q * 10 ^ k) → (scaleLoop (k + 1) q).isSome = true := by
  intro k
  induction k with
  | zero =>
      intro q h
      rw [pow_zero, mul_one] at h
      rw [scaleLoop_succ, if_neg (by omega)]
      rfl
  | succ k ih =>
      intro q h
      rw [scaleLoop_succ]
      by_cases hq : jsRound q < 8
      · rw [if_pos hq]
        apply ih
        have hmul : q * 10 * 10 ^ k = q * 10 ^ (k + 1) := by ring
        rw [hmul]
        exact h
      · rw [if_neg hq]
        rfl

theorem scaleLoop_eq_some :
    ∀ (n : ℕ) {q r : ℚ}, scaleLoop n q = some r →
      ∃ k : ℕ, r = q * 10 ^ k ∧ 8 ≤ jsRound r := by
  intro n
  induction n with
  | zero => intro q r h; exact Option.noConfusion h
  | succ n ih =>
      intro q r h
      rw [scaleLoop_succ] at h
      by_cases hq : jsRound q < 8
      · rw [if_pos hq] at h
        obtain ⟨k, hk, hr⟩ := ih h
        exact ⟨k + 1, by rw [hk]; ring, hr⟩
      · rw [if_neg hq] at h
        injection h with h
        subst h
        exact ⟨0, by ring, by omega⟩

theorem exists_round_ge {q : ℚ} (hq : 0 < q) : ∃ k : ℕ, 8 ≤ jsRound (q * 10 ^ k) := by
  obtain ⟨k, hk⟩ := pow_unbounded_of_one_lt (8 / q) (show (1 : ℚ) < 10 by norm_num)
  rw [div_lt_iff₀ hq] at hk
  exact ⟨k, eight_le_jsRound (by linarith)⟩

/-- C9. `fixLocation` terminates exactly when the input fails to parse
(`none`, the `NaN` case skips the loop) or parses to a strictly positive
value: a non-positive ordinate keeps a rounded value below 8 under every ×10
scaling, so the loop never exits. -/
theorem fixLocation_terminates_iff :
    ∀ x : Option ℚ, (∃ n : ℕ, (fixLocation n x).isSome = true) ↔
      (x = none ∨ ∃ q : ℚ, x = some q ∧ 0 < q) := by
  intro x
  rcases x with _ | q
  · exact ⟨fun _ => Or.inl rfl, fun _ => ⟨0, rfl⟩⟩
  · constructor
    · rintro ⟨n, hn⟩
      refine Or.inr ⟨q, rfl, ?_⟩
      by_contra hq
      push_neg at hq
      rw [show fixLocation n (some q) = (scaleLoop n q).map some from rfl,
        scaleLoop_none_of_nonpos n hq] at hn
      exact Bool.noConfusion hn
    · rintro (h | ⟨q0, hq0, hpos⟩)
      · exact Option.noConfusion h
      · injection hq0 with heq
        have hpos2 : 0 < q := heq ▸ hpos
        obtain ⟨k, hk⟩ := exists_round_ge hpos2
        refine ⟨k + 1, ?_⟩
        rw [show fixLocation (k + 1) (some q) = (scaleLoop (k + 1) q).map some from rfl,
          Option.isSome_map']
        exact scaleLoop_isSome_of_round k q hk

theorem fixLocation_terminates_iff_witness :
    ∃ n : ℕ, (fixLocation n (some 1)).isSome = true :=
  (fixLocation_terminates_iff (some 1)).mpr (Or.inr ⟨1, rfl, by norm_num⟩)

/-- C2. A parsed positive ordinate whose rounded value is below 8 is returned
scaled by some power of 10 whose rounded value is at least 8 (and the loop
terminates on it); an ordinate that is at least 8 is returned unchanged; a
failed parse (`NaN`) is returned as `NaN`. -/
theorem fixLocation_spec :
    (∀ q : ℚ, 0 < q → jsRound q < 8 →
        ∃ (n : ℕ) (r : ℚ) (k : ℕ),
          fixLocation n (some q) = some (some r) ∧ r = q * 10 ^ k ∧ 8 ≤ jsRound r)
  ∧ (∀ (q : ℚ) (n : ℕ), 8 ≤ q → fixLocation (n + 1) (some q) = some (some q))
  ∧ (∀ n : ℕ, fixLocation n none = some none) := by
  refine ⟨?_, ?_, fun n => rfl⟩
  · intro q hpos _
    obtain ⟨k, hk⟩ := exists_round_ge hpos
    have hs := scaleLoop_isSome_of_round k q hk
    obtain ⟨r, hr⟩ := Option.isSome_iff_exists.mp hs
    obtain ⟨k0, hk0, hge⟩ := scaleLoop_eq_some (k + 1) hr
    exact ⟨k + 1, r, k0,
      by rw [show fixLocation (k + 1) (some q) = (scaleLoop (k + 1) q).map some from rfl, hr]; rfl,
      hk0, hge⟩
  · intro q n h
    rw [show fixLocation (n + 1) (some q) = (scaleLoop (n + 1) q).map some from rfl,
      scaleLoop_succ, if_neg (by have := eight_le_jsRound h; omega)]
    rfl

theorem fixLocation_spec_witness :
    fixLocation 1 (some 9) = some (some 9) :=
  fixLocation_spec.2.1 9 0 (by norm_num)

/-- C3. When the record for a marker is built (both `fixLocation` calls
return), the `delay` key is entirely absent from the fields exactly when the
status string starts with `ab:`; otherwise `delay` is present and carries
`convertScheduleStringToSeconds` of that string. -/
theorem delay_field_presence :
    ∀ (fuel : ℕ) (m : Marker) (fs : List (String × FieldVal)),
      buildFields fuel m = some fs →
        (jsStartsWith "ab:" m.Abweichung = true → "delay" ∉ fs.map Prod.fst)
      ∧ (jsStartsWith "ab:" m.Abweichung = false →
          fs.lookup "delay" =
            some (FieldVal.int (convertScheduleStringToSeconds m.Abweichung))) := by
  intro fuel m fs h
  unfold buildFields at h
  rcases h1 : fixLocation fuel m.lat with _ | lv <;> rw [h1] at h
  · exact Option.noConfusion h
  rw [Option.some_bind] at h
  rcases h2 : fixLocation fuel m.lng with _ | gv <;> rw [h2] at h
  · exact Option.noConfusion h
  rw [Option.some_bind] at h
  by_cases hab : jsStartsWith "ab:" m.Abweichung
  · rw [if_pos hab] at h
    injection h with h
    subst h
    refine ⟨fun _ => ?_, fun hf => absurd hab (by simp [hf])⟩
    simp
  · rw [if_neg hab] at h
    injection h with h
    subst h
    refine ⟨fun ht => absurd ht (by simp [hab]), fun _ => ?_⟩
    simp [List.lookup]

def markerOnTheWay : Marker :=
  ⟨none, none, "+ 03:30", some "true", "Bus", none, some "4711", some "1", none, "Donaustadion"⟩

theorem delay_field_presence_witness :
    buildFields 0 markerOnTheWay =
      some [("lat", FieldVal.num none), ("long", FieldVal.num none),
            ("delay", FieldVal.int 210)]
  ∧ (List.lookup "delay" [("lat", FieldVal.num none), ("long", FieldVal.num none),
        ("delay", FieldVal.int 210)]) =
      some (FieldVal.int (convertScheduleStringToSeconds "+ 03:30")) :=
  ⟨by decide, (delay_field_presence 0 markerOnTheWay _ (by decide)).2 (by decide)⟩

/-- JavaScript `String.prototype.trim`: drop whitespace from both ends. -/
def jsTrim (s : String) : String :=
  ⟨((s.data.dropWhile isJsWhitespace).reverse.dropWhile isJsWhitespace).reverse⟩

def markerBlankHeadsign : Marker :=
  ⟨none, none, "00:00", none, "Bus", none, none, none, none, " "⟩

/-- C4 counterexample. The source checks `marker.Zielschild !== ''` without
trimming: a headsign consisting of a single space is kept as a tag even
though it is empty after trimming, refuting "present exactly when non-empty
after trimming". -/
theorem numeric_tags_counterexample :
    (buildTags markerBlankHeadsign).lookup "headsign" = some (TagVal.str " ")
  ∧ jsTrim " " = "" := by
  refine ⟨by decide, by decide⟩

/-- C4 (amended). The numeric tags `vehicle`, `route` and `trip` are present
exactly when `parseInt` of the upstream string (`Fzg`, `Linie`, `TripID`) is
not `NaN`, and then carry that integer; the `headsign` tag is present exactly
when `Zielschild` is not the empty string (the exact string, no trimming);
an absent tag has no key in the record. -/
theorem numeric_tags_presence :
    ∀ m : Marker,
      (buildTags m).lookup "vehicle" = (jsParseInt m.Fzg).map TagVal.int
    ∧ (buildTags m).lookup "route" = (jsParseInt m.Linie).map TagVal.int
    ∧ (buildTags m).lookup "trip" = (jsParseInt m.TripID).map TagVal.int
    ∧ (buildTags m).lookup "headsign" =
        (if m.Zielschild = "" then none else some (TagVal.str m.Zielschild)) := by
  intro m
  rcases h1 : jsParseInt m.Fzg with _ | n1 <;>
  rcases h2 : jsParseInt m.Linie with _ | n2 <;>
  rcases h3 : jsParseInt m.TripID with _ | n3 <;>
  by_cases h4 : m.Zielschild = "" <;>
  simp [buildTags, h1, h2, h3, h4, List.lookup]

theorem numeric_tags_presence_witness :
    (buildTags markerOnTheWay).lookup "vehicle" =
      (jsParseInt (some "4711")).map TagVal.int :=
  (numeric_tags_presence markerOnTheWay).1

/-- C5. In the latest revision the boolean tags `wifi` and `active` are
always present and are true exactly when the upstream string equals the
literal `"true"` (a missing field compares unequal, hence false); in the
earlier revision the boolean fields `ac` and `wifi` are always present in a
built record and are true exactly when the upstream string equals `"J"`. -/
theorem boolean_tags_always_present :
    (∀ m : Marker,
        (buildTags m).lookup "wifi" = some (TagVal.bool (m.Wifi = some "true"))
      ∧ (buildTags m).lookup "active" = some (TagVal.bool (m.aktiv = some "true")))
  ∧ (∀ (α : Type) (m : MarkerV1 α) (fs : List (String × FieldValV1 α)),
        buildFieldsV1 m = some fs →
          fs.lookup "ac" = some (FieldValV1.bool (m.ac = some "J"))
        ∧ fs.lookup "wifi" = some (FieldValV1.bool (m.wifi = some "J"))) := by
  constructor
  · intro m
    rcases h1 : jsParseInt m.Fzg with _ | n1 <;>
    rcases h2 : jsParseInt m.Linie with _ | n2 <;>
    rcases h3 : jsParseInt m.TripID with _ | n3 <;>
    by_cases h4 : m.Zielschild = "" <;>
    simp [buildTags, h1, h2, h3, h4, List.lookup]
  · intro α m fs h
    unfold buildFieldsV1 at h
    rcases hd : convertScheduleStringToSecondsV1 m.schedule with _ | d <;> rw [hd] at h
    · exact Option.noConfusion h
    · injection h with h
      subst h
      refine ⟨by simp [List.lookup], by simp [List.lookup]⟩

def markerV1NoWifi : MarkerV1 Unit :=
  ⟨(), (), (), (), (), some "J", none, "- 03:20", (), (), ()⟩

theorem boolean_tags_always_present_witness :
    (buildTags markerOnTheWay).lookup "wifi" = some (TagVal.bool true)
  ∧ (List.lookup "wifi"
      [("vehicle", FieldValV1.raw ()), ("route", FieldValV1.raw ()),
       ("trip", FieldValV1.raw ()), ("lat", FieldValV1.raw ()),
       ("long", FieldValV1.raw ()), ("ac", FieldValV1.bool true),
       ("wifi", FieldValV1.bool false), ("delay", FieldValV1.int (-200)),
       ("destination", FieldValV1.raw ()), ("tripPattern", FieldValV1.raw ()),
       ("typ", FieldValV1.raw ())]) = some (FieldValV1.bool false) := by
  constructor
  · have h := (boolean_tags_always_present.1 markerOnTheWay).1
    simpa using h
  · have h := (boolean_tags_always_present.2 Unit markerV1NoWifi
      [("vehicle", FieldValV1.raw ()), ("route", FieldValV1.raw ()),
       ("trip", FieldValV1.raw ()), ("lat", FieldValV1.raw ()),
       ("long", FieldValV1.raw ()), ("ac", FieldValV1.bool true),
       ("wifi", FieldValV1.bool false), ("delay", FieldValV1.int (-200)),
       ("destination", FieldValV1.raw ()), ("tripPattern", FieldValV1.raw ()),
       ("typ", FieldValV1.raw ())] (by decide)).2
    simpa using h

def landingFixture : String :=
  "<html><head><script>\nvar request = 123;\nvar state = 456;\n</script></head></html>"

/-- C7. On a landing page containing `var request = 123;` and
`var state = 456;`, `parseIds` yields the two captured digit strings as the
request/state pair; in general it returns the two captures of the two
declaration patterns, and when either pattern has no match it fails (the
source indexes into `null`) instead of returning a value. -/
theorem parseIds_spec :
    parseIds landingFixture = some ("123", "456")
  ∧ (∀ (html : String) (r s : List Char),
        findVarDecl "var request = ".data html.data = some r →
        findVarDecl "var state = ".data html.data = some s →
        parseIds html = some (String.mk r, String.mk s))
  ∧ (∀ html : String,
        findVarDecl "var request = ".data html.data = none ∨
        findVarDecl "var state = ".data html.data = none →
        parseIds html = none)
  ∧ parseIds "var request = 123; but no state assignment" = none := by
  refine ⟨by decide, ?_, ?_, by decide⟩
  · intro html r s hr hs
    unfold parseIds
    rw [hr, hs]
  · intro html h
    unfold parseIds
    rcases h with h | h
    · rw [h]
    · rw [h]
      rcases findVarDecl "var request = ".data html.data with _ | r <;> rfl

theorem parseIds_spec_witness :
    parseIds "var state = 456; with the request assignment missing" = none :=
  parseIds_spec.2.2.1 "var state = 456; with the request assignment missing"
    (Or.inl (by decide))

def validateNothing : String → Bool := fun _ => false

def markersAbsent : String → Option (Option Unit) := fun _ => none

/-- C8 counterexample. With the library validator rejecting the input (as it
does on malformed XML), `parseXml` does not fail: it falls off the function
and returns `undefined`, refuting "fails with a DecodeError on invalid
XML". -/
theorem parseXml_counterexample :
    parseXml Unit validateNothing markersAbsent "<markers" = JsOutcome.value none
  ∧ parseXml Unit validateNothing markersAbsent "<markers" ≠ JsOutcome.thrown := by
  refine ⟨rfl, by decide⟩

/-- C8 (amended). `parseXml` validates first; when validation fails it
returns `undefined` without raising anything; when validation succeeds but
the parsed document has no `markers` key, the `markers.marker` access throws;
when the `markers` key is present, the function returns its `marker` value
(itself possibly `undefined`). Entity decoding is delegated to the
configured processors of the external parser library, which is abstracted
here as the `validate`/`markersOf` parameters. -/
theorem parseXml_spec :
    ∀ (α : Type) (validate : String → Bool) (markersOf : String → Option (Option α))
      (xml : String),
      (validate xml = false → parseXml α validate markersOf xml = JsOutcome.value none)
    ∧ (validate xml = true → markersOf xml = none →
        parseXml α validate markersOf xml = JsOutcome.thrown)
    ∧ (∀ mk : Option α, validate xml = true → markersOf xml = some mk →
        parseXml α validate markersOf xml = JsOutcome.value mk) := by
  intro α validate markersOf xml
  refine ⟨fun hv => ?_, fun hv hm => ?_, fun mk hv hm => ?_⟩
  · unfold parseXml
    rw [hv]
    rfl
  · unfold parseXml
    rw [hv, if_pos rfl, hm]
  · unfold parseXml
    rw [hv, if_pos rfl, hm]

theorem parseXml_spec_witness :
    parseXml Unit validateNothing markersAbsent "" = JsOutcome.value none :=
  (parseXml_spec Unit validateNothing markersAbsent "").1 rfl
